import Mathlib

/-!
Verification of the band-recommendation pipeline in
`src/spotify_recommendations.py`.

The script builds a listener taste profile (top-10 genre frequencies plus
mean artist popularity), scores each candidate band by a weighted blend of
Jaccard genre similarity (0.7) and bounded popularity similarity (0.3),
skips candidates whose lookup fails, aborts with a terminal message when no
candidate could be scored, and finally sorts the results by descending
similarity with Python's stable sort before writing them to JSON.

Numbers are modelled with `ℚ`; the external Spotify client is modelled by
injected `Option`-returning functions (a `none` stands for a missed lookup
or a raised/caught exception); Python `dict.get` with a default is modelled
by `Option.getD`; operations that can raise (`KeyError` on a missing key,
`ZeroDivisionError` on a zero denominator) return `Except String`.
-/

namespace SpotifyRec

/-- Artist record as returned by the catalog service (`sp.artist(...)`).
The `genres` and `popularity` keys may be absent: the script reads them
with `.get("genres", [])` / `.get("popularity", 0)` on the candidate side
and with direct subscripting (`artist["popularity"]`) on the listener
side. -/
structure ArtistInfo where
  genres : Option (List String)
  popularity : Option ℚ
deriving DecidableEq

/-- Listener taste profile built in step 3 of the script: `user_genres`
(genre → relative frequency, insertion order kept) and `user_popularity`
(mean popularity of the sampled top artists). -/
structure ListenerProfile where
  user_genres : List (String × ℚ)
  user_popularity : ℚ
deriving DecidableEq

/-- One entry of the `results` list built by the scoring loop. -/
structure CandidateResult where
  name : String
  similarity : ℚ
  genres : List String
  popularity : ℚ
deriving DecidableEq

/-- Embedding of `jaccard_similarity(set1, set2)` (lines 101-107):
returns 0 when either set is empty, otherwise `|∩| / |∪|` guarded by a
(`union > 0`) check. -/
def jaccard_similarity {α : Type} [DecidableEq α] (set1 set2 : Finset α) : ℚ :=
  if set1 = ∅ ∨ set2 = ∅ then 0
  else
    let intersection := (set1 ∩ set2).card
    let union := (set1 ∪ set2).card
    if union > 0 then (intersection : ℚ) / (union : ℚ) else 0

/-- The per-candidate score computed in the scoring loop (lines 119-130):
`genre_sim * 0.7 + pop_sim * 0.3` with
`pop_sim = 1 - |artist_popularity - user_popularity| / 100`. -/
def similarity (user_genre_set : Finset String) (user_popularity : ℚ)
    (artist_genres : Finset String) (artist_popularity : ℚ) : ℚ :=
  let genre_sim := jaccard_similarity artist_genres user_genre_set
  let pop_diff := |artist_popularity - user_popularity| / 100
  let pop_sim := 1 - pop_diff
  genre_sim * 0.7 + pop_sim * 0.3

/-- One iteration of the scoring loop (lines 110-142) for one band name.
`resolver` embeds `get_artist_id` (lines 92-99: `None` both on a missed
search and on a raised exception); `fetch` embeds the guarded
`sp.artist(artist_id)` call (a `none` is the caught exception of the
`try` block, which skips the band). -/
def scoreBand (resolver : String → Option String) (fetch : String → Option ArtistInfo)
    (profile : ListenerProfile) (band : String) : Option CandidateResult :=
  match resolver band with
  | none => none
  | some artist_id =>
    match fetch artist_id with
    | none => none
    | some artist_info =>
      let artist_genres : Finset String := (artist_info.genres.getD []).toFinset
      let user_genre_set : Finset String := (profile.user_genres.map Prod.fst).toFinset
      let artist_popularity : ℚ := artist_info.popularity.getD 0
      some { name := band
             similarity := similarity user_genre_set profile.user_popularity
               artist_genres artist_popularity
             genres := artist_info.genres.getD []
             popularity := artist_popularity }

/-- The whole scoring loop: the `results` list after iterating over all
candidates in input order, appending one result per non-skipped band. -/
def scoreAll (resolver : String → Option String) (fetch : String → Option ArtistInfo)
    (profile : ListenerProfile) (candidates : List String) : List CandidateResult :=
  candidates.filterMap (scoreBand resolver fetch profile)

/-- Insertion step of a stable descending sort on a key: `x` is placed
before the first element whose key is not greater than `key x`, so earlier
input elements with an equal key stay in front. -/
def insDesc {α β : Type} [LinearOrder β] (key : α → β) (x : α) : List α → List α
  | [] => [x]
  | y :: ys => if key y > key x then y :: insDesc key x ys else x :: y :: ys

/-- Stable descending sort by a key: the semantics of Python's
`list.sort(key=..., reverse=True)` (Python's sort is stable, and a stable
sort by a key is a unique function of its input). -/
def sortDescBy {α β : Type} [LinearOrder β] (key : α → β) (l : List α) : List α :=
  l.foldr (insDesc key) []

/-- Embedding of `results.sort(key=lambda x: x["similarity"], reverse=True)`
(lines 150-151). -/
def rankResults (results : List CandidateResult) : List CandidateResult :=
  sortDescBy CandidateResult.similarity results

/-- The terminal message of line 148. -/
def noBandsMsg : String := "❌ No bands could be analyzed. Check your input file."

/-- The presentation stage (lines 147-165): the empty-results check comes
first and exits before anything is sorted or written; otherwise the sorted
`results` list is the content written to the output JSON file, modelled as
the `Except.ok` payload. -/
def runPipeline (resolver : String → Option String) (fetch : String → Option ArtistInfo)
    (profile : ListenerProfile) (candidates : List String) :
    Except String (List CandidateResult) :=
  let results := scoreAll resolver fetch profile candidates
  if results.isEmpty then Except.error noBandsMsg
  else Except.ok (rankResults results)

/-- First-occurrence deduplication with an accumulator of already seen
elements: the key order of a Python `Counter` (insertion order of the
first occurrence of each key). -/
def firstDedupAux : List String → List String → List String
  | _, [] => []
  | seen, x :: xs =>
    if x ∈ seen then firstDedupAux seen xs else x :: firstDedupAux (x :: seen) xs

/-- Keys of `Counter(all_genres)` in first-occurrence order. -/
def firstDedup (l : List String) : List String := firstDedupAux [] l

/-- Embedding of `Counter(all_genres)` as an association list in key
insertion order: each distinct element paired with its multiplicity. -/
def counterItems (l : List String) : List (String × ℕ) :=
  (firstDedup l).map fun g => (g, l.count g)

/-- Embedding of `Counter.most_common(n)`: items sorted by count
descending (stable, equal counts keep insertion order), truncated to `n`. -/
def mostCommon (n : ℕ) (items : List (String × ℕ)) : List (String × ℕ) :=
  (sortDescBy Prod.snd items).take n

/-- The dict comprehension of line 67,
`{genre: count/total_genres for genre, count in genre_counts.most_common(10)}`:
each division is guarded by the Python `ZeroDivisionError` check, so the
error branch is reached exactly when a division by a zero
`total_genres` is actually evaluated. -/
def weightItems (total_genres : ℕ) : List (String × ℕ) → Except String (List (String × ℚ))
  | [] => Except.ok []
  | (g, c) :: rest =>
    if total_genres = 0 then Except.error "ZeroDivisionError: division by zero"
    else
      match weightItems total_genres rest with
      | Except.error e => Except.error e
      | Except.ok ps => Except.ok ((g, (c : ℚ) / (total_genres : ℚ)) :: ps)

/-- Lines 60-67: gather `all_genres` across the fetched artists (missing
`genres` keys default to `[]`), count them, form
`total_genres = sum(genre_counts.values())` and normalize the 10 most
common genres by `total_genres`. -/
def userGenresE (top_artists_info : List ArtistInfo) : Except String (List (String × ℚ)) :=
  let all_genres := top_artists_info.flatMap fun a => a.genres.getD []
  let genre_counts := counterItems all_genres
  let total_genres := (genre_counts.map Prod.snd).sum
  weightItems total_genres (mostCommon 10 genre_counts)

/-- The comprehension `[artist["popularity"] for artist in top_artists_info]`
of line 68: direct subscripting raises `KeyError` on a missing key. -/
def popList : List ArtistInfo → Except String (List ℚ)
  | [] => Except.ok []
  | a :: rest =>
    match a.popularity with
    | none => Except.error "KeyError: popularity"
    | some p =>
      match popList rest with
      | Except.error e => Except.error e
      | Except.ok ps => Except.ok (p :: ps)

/-- Lines 55-68: cap the distinct top-artist ids at 20 (`[:20]`), fetch
their records (`lookup` embeds `sp.artist`), build the genre-weight map
and the `np.mean` popularity (sum divided by length) over the same
artist subset. `top_artists_ids` stands for the output of
`list(set(...))`, hence duplicate-free. -/
def buildProfile (top_artists_ids : List String) (lookup : String → ArtistInfo) :
    Except String ListenerProfile :=
  let top_artists_info := (top_artists_ids.take 20).map lookup
  match userGenresE top_artists_info with
  | Except.error e => Except.error e
  | Except.ok gw =>
    match popList top_artists_info with
    | Except.error e => Except.error e
    | Except.ok ps => Except.ok ⟨gw, ps.sum / (ps.length : ℚ)⟩

/-! ### Concrete fixtures used in scenario theorems and witnesses -/

/-- The categorical listener profile of scenario B: genres rock and pop at
weight 1/2 each, mean popularity 60. -/
def listenerB : ListenerProfile := ⟨[("rock", 1/2), ("pop", 1/2)], 60⟩

/-- A resolver whose search always finds a match. -/
def resolverB : String → Option String := fun _ => some "candidate-id"

/-- A fetch returning an artist with genres rock and jazz, popularity 60. -/
def fetchB : String → Option ArtistInfo := fun _ => some ⟨some ["rock", "jazz"], some 60⟩

/-- A catalog lookup whose every artist has an empty genre list. -/
def emptyGenreLookup : String → ArtistInfo := fun _ => ⟨some [], some 50⟩

/-! ### Helper lemmas about `jaccard_similarity` -/

theorem jaccard_nonneg {α : Type} [DecidableEq α] (A B : Finset α) :
    0 ≤ jaccard_similarity A B := by
  unfold jaccard_similarity
  split
  · exact le_refl 0
  · dsimp only
    split
    · positivity
    · exact le_refl 0

theorem jaccard_le_one {α : Type} [DecidableEq α] (A B : Finset α) :
    jaccard_similarity A B ≤ 1 := by
  unfold jaccard_similarity
  split
  · exact zero_le_one
  · dsimp only
    split
    · rename_i hpos
      rw [div_le_one (by exact_mod_cast hpos)]
      exact_mod_cast Finset.card_le_card (Finset.inter_subset_union)
    · exact zero_le_one

theorem jaccard_self {α : Type} [DecidableEq α] (A : Finset α) (hA : A ≠ ∅) :
    jaccard_similarity A A = 1 := by
  unfold jaccard_similarity
  rw [if_neg (by simp [hA])]
  dsimp only
  rw [Finset.inter_self, Finset.union_self,
    if_pos (Finset.card_pos.mpr (Finset.nonempty_iff_ne_empty.mpr hA))]
  exact div_self (by
    exact_mod_cast Finset.card_ne_zero_of_mem (Finset.nonempty_iff_ne_empty.mpr hA).choose_spec)

/-- C1: for a listener profile with genres {rock, pop} (weights 0.5 each)
and mean popularity 60, and a candidate with fetched genres {rock, jazz}
and popularity 60, the Jaccard genre similarity is 1/3 and the computed
similarity score is the weighted blend `0.7 * (1/3) + 0.3 * 1` ≈ 0.533. -/
theorem c1_scenarioB :
    jaccard_similarity ({"rock", "jazz"} : Finset String) {"rock", "pop"} = 1/3
    ∧ (scoreBand resolverB fetchB listenerB "CandX").map CandidateResult.similarity
        = some (0.7 * (1/3) + 0.3 * 1) := by
  constructor
  · rfl
  · have hj : jaccard_similarity ({"rock", "jazz"} : Finset String) {"rock", "pop"} = 1/3 := by
      rfl
    simp only [scoreBand, resolverB, fetchB, similarity, Option.getD_some, Option.map_some,
      Option.some.injEq, listenerB]
    rw [show ((["rock", "jazz"] : List String).toFinset) = {"rock", "jazz"} from rfl]
    norm_num [hj]

/-- C2: for any two finite sets, `jaccard_similarity` lies in [0,1]; it is
0 (not an error) when either set is empty; and it is 1 on any non-empty set
compared with itself. -/
theorem c2_jaccard_bounds {α : Type} [DecidableEq α] (A B : Finset α) :
    (0 ≤ jaccard_similarity A B ∧ jaccard_similarity A B ≤ 1)
    ∧ jaccard_similarity (∅ : Finset α) B = 0
    ∧ jaccard_similarity A (∅ : Finset α) = 0
    ∧ (A ≠ ∅ → jaccard_similarity A A = 1) := by
  refine ⟨⟨jaccard_nonneg A B, jaccard_le_one A B⟩, ?_, ?_, jaccard_self A⟩
  · unfold jaccard_similarity
    simp
  · unfold jaccard_similarity
    simp

/-- Witness for C2 at concrete sets. -/
theorem c2_witness :
    ({1} : Finset ℕ) ≠ ∅ ∧ jaccard_similarity ({1} : Finset ℕ) {1} = 1 :=
  ⟨by decide, (c2_jaccard_bounds ({1} : Finset ℕ) {2}).2.2.2 (by decide)⟩

/-! ### Lemmas about the stable descending sort -/

section SortLemmas

variable {α β : Type} [LinearOrder β] (key : α → β)

theorem insDesc_perm (x : α) (l : List α) : List.Perm (insDesc key x l) (x :: l) := by
  induction l with
  | nil => exact List.Perm.refl _
  | cons y ys ih =>
    unfold insDesc
    split
    · exact (ih.cons y).trans (List.Perm.swap x y ys)
    · exact List.Perm.refl _

theorem sortDescBy_perm (l : List α) : List.Perm (sortDescBy key l) l := by
  induction l with
  | nil => exact List.Perm.refl _
  | cons x xs ih =>
    exact (insDesc_perm key x (sortDescBy key xs)).trans (ih.cons x)

theorem insDesc_pairwise (x : α) (l : List α)
    (h : l.Pairwise fun a b => key b ≤ key a) :
    (insDesc key x l).Pairwise fun a b => key b ≤ key a := by
  induction l with
  | nil => exact List.pairwise_singleton _ x
  | cons y ys ih =>
    rw [List.pairwise_cons] at h
    unfold insDesc
    split
    · rename_i hgt
      rw [List.pairwise_cons]
      refine ⟨fun z hz => ?_, ih h.2⟩
      rcases List.mem_cons.mp ((insDesc_perm key x ys).mem_iff.mp hz) with hzx | hzy
      · exact hzx ▸ le_of_lt hgt
      · exact h.1 z hzy
    · rename_i hle
      push_neg at hle
      rw [List.pairwise_cons]
      exact ⟨fun z hz => by
        rcases List.mem_cons.mp hz with hzy | hzys
        · exact hzy ▸ hle
        · exact le_trans (h.1 z hzys) hle,
        List.pairwise_cons.mpr h⟩

theorem sortDescBy_pairwise (l : List α) :
    (sortDescBy key l).Pairwise fun a b => key b ≤ key a := by
  induction l with
  | nil => simp [sortDescBy]
  | cons x xs ih => exact insDesc_pairwise key x _ ih

theorem insDesc_filter_eq (x : α) (l : List α) (s : β) (hx : key x = s) :
    (insDesc key x l).filter (fun a => decide (key a = s))
      = x :: l.filter (fun a => decide (key a = s)) := by
  induction l with
  | nil => simp [insDesc, hx]
  | cons y ys ih =>
    unfold insDesc
    split
    · rename_i hgt
      have hy : ¬ (key y = s) := by rw [← hx]; exact ne_of_gt hgt
      simp only [List.filter_cons, decide_eq_true_eq, if_neg hy, ih]
    · simp [List.filter_cons, hx]

theorem insDesc_filter_ne (x : α) (l : List α) (s : β) (hx : key x ≠ s) :
    (insDesc key x l).filter (fun a => decide (key a = s))
      = l.filter (fun a => decide (key a = s)) := by
  induction l with
  | nil => simp [insDesc, hx]
  | cons y ys ih =>
    unfold insDesc
    split
    · simp only [List.filter_cons, ih]
    · simp [List.filter_cons, hx]

theorem sortDescBy_filter (l : List α) (s : β) :
    (sortDescBy key l).filter (fun a => decide (key a = s))
      = l.filter (fun a => decide (key a = s)) := by
  induction l with
  | nil => rfl
  | cons x xs ih =>
    show (insDesc key x (sortDescBy key xs)).filter _ = _
    by_cases hx : key x = s
    · rw [insDesc_filter_eq key x _ s hx, ih, List.filter_cons, if_pos (by simpa using hx)]
    · rw [insDesc_filter_ne key x _ s hx, ih, List.filter_cons,
        if_neg (by simpa using hx)]

theorem insDesc_of_le (x : α) (l : List α) (h : ∀ y ∈ l, key y ≤ key x) :
    insDesc key x l = x :: l := by
  cases l with
  | nil => rfl
  | cons y ys =>
    unfold insDesc
    rw [if_neg (not_lt.mpr (h y (List.mem_cons_self y ys)))]

theorem sortDescBy_eq_self (l : List α) (h : l.Pairwise fun a b => key b ≤ key a) :
    sortDescBy key l = l := by
  induction l with
  | nil => rfl
  | cons x xs ih =>
    rw [List.pairwise_cons] at h
    show insDesc key x (sortDescBy key xs) = x :: xs
    rw [ih h.2, insDesc_of_le key x xs h.1]

end SortLemmas

/-- C4: the Ranker returns a permutation of the results, sorted by
descending similarity; for every score value the results carrying that
score appear in exactly their original input order (stable tie-break by
input position); and re-applying the sort to an already ranked list is the
identity. -/
theorem c4_ranker (l : List CandidateResult) :
    List.Perm (rankResults l) l
    ∧ (rankResults l).Pairwise (fun a b => b.similarity ≤ a.similarity)
    ∧ (∀ s : ℚ, (rankResults l).filter (fun r => decide (r.similarity = s))
        = l.filter (fun r => decide (r.similarity = s)))
    ∧ rankResults (rankResults l) = rankResults l := by
  refine ⟨sortDescBy_perm _ l, sortDescBy_pairwise _ l,
    fun s => sortDescBy_filter _ l s, ?_⟩
  exact sortDescBy_eq_self _ _ (sortDescBy_pairwise CandidateResult.similarity l)

/-! ### Bounds and monotonicity of the blended score -/

theorem similarity_bounds (uset aset : Finset String) (up ap : ℚ)
    (hap0 : 0 ≤ ap) (hap1 : ap ≤ 100) (hup0 : 0 ≤ up) (hup1 : up ≤ 100) :
    0 ≤ similarity uset up aset ap ∧ similarity uset up aset ap ≤ 1 := by
  have hj0 := jaccard_nonneg aset uset
  have hj1 := jaccard_le_one aset uset
  have habs1 : |ap - up| ≤ 100 := by
    rw [abs_sub_le_iff]
    constructor <;> linarith
  have habs0 : 0 ≤ |ap - up| := abs_nonneg _
  unfold similarity
  dsimp only
  rw [show (0.7 : ℚ) = 7/10 by norm_num, show (0.3 : ℚ) = 3/10 by norm_num]
  constructor <;> nlinarith [habs1, habs0, hj0, hj1]

theorem jaccard_eq_of_ne {α : Type} [DecidableEq α] (A U : Finset α)
    (hA : A ≠ ∅) (hU : U ≠ ∅) :
    jaccard_similarity A U = ((A ∩ U).card : ℚ) / ((A ∪ U).card : ℚ) := by
  unfold jaccard_similarity
  rw [if_neg (by simp [hA, hU])]
  dsimp only
  rw [if_pos (Finset.card_pos.mpr ((Finset.nonempty_iff_ne_empty.mpr hU).mono
    Finset.subset_union_right))]

theorem jaccard_mono {α : Type} [DecidableEq α] (A B U : Finset α)
    (hAB : A ⊆ B) (hBU : B ⊆ A ∪ U) :
    jaccard_similarity A U ≤ jaccard_similarity B U := by
  by_cases hU : U = ∅
  · subst hU
    have hBA : B = A := Finset.Subset.antisymm (by simpa using hBU) hAB
    rw [hBA]
  · by_cases hA : A = ∅
    · subst hA
      rw [show jaccard_similarity (∅ : Finset α) U = 0 by unfold jaccard_similarity; simp]
      exact jaccard_nonneg B U
    · have hB : B ≠ ∅ := by
        intro hB0
        exact hA (Finset.subset_empty.mp (hB0 ▸ hAB))
      have hunion : B ∪ U = A ∪ U := by
        apply Finset.Subset.antisymm
        · exact Finset.union_subset (by simpa using hBU) Finset.subset_union_right
        · exact Finset.union_subset_union_left hAB
      have hinter : (A ∩ U).card ≤ (B ∩ U).card :=
        Finset.card_le_card (Finset.inter_subset_inter hAB (Finset.Subset.refl U))
      rw [jaccard_eq_of_ne A U hA hU, jaccard_eq_of_ne B U hB hU, hunion]
      have hpos : (0 : ℚ) < ((A ∪ U).card : ℚ) := by
        exact_mod_cast Finset.card_pos.mpr ((Finset.nonempty_iff_ne_empty.mpr hU).mono
          Finset.subset_union_right)
      gcongr

/-- C3: given candidate popularity and listener mean popularity in
[0,100], the popularity similarity `1 - |p1 - p2| / 100` lies in [0,1],
and every `CandidateResult` produced by the scoring loop has its blended
similarity score in [0,1], with no explicit clamping anywhere. -/
theorem c3_score_bounds (resolver : String → Option String)
    (fetch : String → Option ArtistInfo) (profile : ListenerProfile)
    (candidates : List String)
    (hup0 : 0 ≤ profile.user_popularity) (hup1 : profile.user_popularity ≤ 100)
    (hfetch : ∀ a info, fetch a = some info →
      0 ≤ info.popularity.getD 0 ∧ info.popularity.getD 0 ≤ 100) :
    (∀ p1 p2 : ℚ, 0 ≤ p1 → p1 ≤ 100 → 0 ≤ p2 → p2 ≤ 100 →
      0 ≤ 1 - |p1 - p2| / 100 ∧ 1 - |p1 - p2| / 100 ≤ 1)
    ∧ ∀ r ∈ scoreAll resolver fetch profile candidates,
        0 ≤ r.similarity ∧ r.similarity ≤ 1 := by
  constructor
  · intro p1 p2 h1 h2 h3 h4
    have habs1 : |p1 - p2| ≤ 100 := by
      rw [abs_sub_le_iff]
      constructor <;> linarith
    have habs0 : 0 ≤ |p1 - p2| := abs_nonneg _
    constructor <;> [linarith; linarith]
  · intro r hr
    obtain ⟨band, _hband, hsb⟩ := List.mem_filterMap.mp hr
    unfold scoreBand at hsb
    cases hres : resolver band with
    | none =>
      rw [hres] at hsb
      exact Option.noConfusion hsb
    | some aid =>
      rw [hres] at hsb
      dsimp only at hsb
      cases hfet : fetch aid with
      | none =>
        rw [hfet] at hsb
        exact Option.noConfusion hsb
      | some info =>
        rw [hfet] at hsb
        dsimp only at hsb
        obtain ⟨hb1, hb2⟩ := hfetch aid info hfet
        have := similarity_bounds ((profile.user_genres.map Prod.fst).toFinset)
          ((info.genres.getD []).toFinset) profile.user_popularity
          (info.popularity.getD 0) hb1 hb2 hup0 hup1
        cases hsb
        exact this

/-- Witness for C3 on the scenario-B fixtures with one candidate. -/
theorem c3_witness :
    (0 : ℚ) ≤ listenerB.user_popularity ∧ listenerB.user_popularity ≤ 100
    ∧ ∀ r ∈ scoreAll resolverB fetchB listenerB ["CandX"],
        0 ≤ r.similarity ∧ r.similarity ≤ 1 :=
  ⟨by decide, by decide,
    (c3_score_bounds resolverB fetchB listenerB ["CandX"] (by decide) (by decide)
      (fun a info h => by
        simp only [fetchB, Option.some.injEq] at h
        subst h
        exact ⟨by decide, by decide⟩)).2⟩

/-- C5: holding the candidate popularity and the listener profile fixed,
growing the candidate genre set by shared genres (any `B` between `A` and
`A ∪ user_genre_set`) does not decrease the categorical similarity
score. -/
theorem c5_genre_monotone (user_genre_set A B : Finset String) (up ap : ℚ)
    (hAB : A ⊆ B) (hBU : B ⊆ A ∪ user_genre_set) :
    similarity user_genre_set up A ap ≤ similarity user_genre_set up B ap := by
  have hj := jaccard_mono A B user_genre_set hAB hBU
  unfold similarity
  dsimp only
  rw [show (0.7 : ℚ) = 7/10 by norm_num]
  linarith

/-- Witness for C5: adding the shared genre pop to a candidate that
already shares rock raises the score. -/
theorem c5_witness :
    ({"rock"} : Finset String) ⊆ {"rock", "pop"}
    ∧ ({"rock", "pop"} : Finset String) ⊆ {"rock"} ∪ {"rock", "pop"}
    ∧ similarity {"rock", "pop"} 60 {"rock"} 40
        ≤ similarity {"rock", "pop"} 60 {"rock", "pop"} 40 :=
  ⟨by decide, by decide,
    c5_genre_monotone {"rock", "pop"} {"rock"} {"rock", "pop"} 60 40
      (by decide) (by decide)⟩

/-! ### Skip-on-missing-data, terminal failure and popularity default -/

/-- C6: a candidate whose resolver lookup returns no match (which also
covers a resolver-side exception, returned as `None` by `get_artist_id`)
produces zero results, and the output over the whole candidate list equals
the output with the failing candidate removed. -/
theorem c6_skip_missing (resolver : String → Option String)
    (fetch : String → Option ArtistInfo) (profile : ListenerProfile)
    (pre post : List String) (bad : String) (hbad : resolver bad = none) :
    scoreBand resolver fetch profile bad = none
    ∧ scoreAll resolver fetch profile (pre ++ bad :: post)
        = scoreAll resolver fetch profile (pre ++ post) := by
  have h1 : scoreBand resolver fetch profile bad = none := by
    unfold scoreBand
    rw [hbad]
  refine ⟨h1, ?_⟩
  unfold scoreAll
  rw [List.filterMap_append, List.filterMap_append, List.filterMap_cons, h1]

/-- Witness for C6: the middle band of three is not found; the result is
the same as for the remaining two bands. -/
theorem c6_witness :
    (fun n => if n = "Missing" then none else some n) "Missing" = none
    ∧ scoreBand (fun n => if n = "Missing" then none else some n) fetchB listenerB "Missing"
        = none
    ∧ scoreAll (fun n => if n = "Missing" then none else some n) fetchB listenerB
        (["A"] ++ "Missing" :: ["B"])
        = scoreAll (fun n => if n = "Missing" then none else some n) fetchB listenerB
        (["A"] ++ ["B"]) := by
  have h := c6_skip_missing (fun n => if n = "Missing" then none else some n)
    fetchB listenerB ["A"] ["B"] "Missing" (by simp)
  exact ⟨by simp, h.1, h.2⟩

/-- C7: when the candidate list is non-empty but the scoring loop produced
zero results, the run ends with the "No bands could be analyzed" terminal
message, and no output JSON content is ever produced (the check precedes
the file write). -/
theorem c7_terminal_no_write (resolver : String → Option String)
    (fetch : String → Option ArtistInfo) (profile : ListenerProfile)
    (candidates : List String) (hne : candidates ≠ [])
    (hzero : scoreAll resolver fetch profile candidates = []) :
    runPipeline resolver fetch profile candidates = Except.error noBandsMsg
    ∧ ∀ out, runPipeline resolver fetch profile candidates ≠ Except.ok out := by
  have h : runPipeline resolver fetch profile candidates = Except.error noBandsMsg := by
    unfold runPipeline
    rw [hzero]
    rfl
  exact ⟨h, fun out hout => by rw [h] at hout; exact Except.noConfusion hout⟩

/-- Witness for C7: one candidate, never resolved. -/
theorem c7_witness :
    (["CandX"] : List String) ≠ []
    ∧ scoreAll (fun _ => none) fetchB listenerB ["CandX"] = []
    ∧ runPipeline (fun _ => none) fetchB listenerB ["CandX"] = Except.error noBandsMsg :=
  ⟨by simp, by rfl,
    (c7_terminal_no_write (fun _ => none) fetchB listenerB ["CandX"] (by simp) (by rfl)).1⟩

/-- C10: a candidate whose fetched record has no popularity value is not
skipped: it is scored with popularity defaulted to 0, its popularity
similarity is `1 - user_popularity / 100`, and its result records
popularity 0. -/
theorem c10_default_popularity (resolver : String → Option String)
    (fetch : String → Option ArtistInfo) (profile : ListenerProfile)
    (band aid : String) (info : ArtistInfo)
    (hres : resolver band = some aid) (hfet : fetch aid = some info)
    (hnopop : info.popularity = none) (hup : 0 ≤ profile.user_popularity) :
    scoreBand resolver fetch profile band = some
      { name := band
        similarity :=
          jaccard_similarity (info.genres.getD []).toFinset
              ((profile.user_genres.map Prod.fst).toFinset) * 0.7
            + (1 - profile.user_popularity / 100) * 0.3
        genres := info.genres.getD []
        popularity := 0 } := by
  unfold scoreBand
  rw [hres]
  dsimp only
  rw [hfet]
  dsimp only
  rw [hnopop]
  unfold similarity
  dsimp only [Option.getD_none]
  have habs : |0 - profile.user_popularity| = profile.user_popularity := by
    rw [zero_sub, abs_neg, abs_of_nonneg hup]
  rw [habs]

/-- Witness for C10: a fetched artist record with genres but no
popularity key. -/
theorem c10_witness :
    (fun _ => some (⟨some ["rock"], none⟩ : ArtistInfo)) "candidate-id"
        = some (⟨some ["rock"], none⟩ : ArtistInfo)
    ∧ scoreBand resolverB (fun _ => some ⟨some ["rock"], none⟩) listenerB "CandX" = some
      { name := "CandX"
        similarity :=
          jaccard_similarity ((["rock"] : List String).toFinset)
              ((listenerB.user_genres.map Prod.fst).toFinset) * 0.7
            + (1 - listenerB.user_popularity / 100) * 0.3
        genres := ["rock"]
        popularity := 0 } :=
  ⟨rfl,
    c10_default_popularity resolverB (fun _ => some ⟨some ["rock"], none⟩) listenerB
      "CandX" "candidate-id" ⟨some ["rock"], none⟩ rfl rfl rfl (by decide)⟩

/-! ### Lemmas about the listener-profile construction -/

theorem mem_firstDedupAux (a : String) (l : List String) : ∀ seen : List String,
    a ∈ firstDedupAux seen l ↔ a ∈ l ∧ a ∉ seen := by
  induction l with
  | nil => intro seen; simp [firstDedupAux]
  | cons x xs ih =>
    intro seen
    unfold firstDedupAux
    by_cases hx : x ∈ seen
    · rw [if_pos hx, ih seen]
      constructor
      · rintro ⟨h1, h2⟩
        exact ⟨List.mem_cons_of_mem x h1, h2⟩
      · rintro ⟨h1, h2⟩
        rcases List.mem_cons.mp h1 with h | h
        · exact absurd (h ▸ hx) h2
        · exact ⟨h, h2⟩
    · rw [if_neg hx]
      by_cases hax : a = x
      · subst hax
        simp [hx]
      · simp only [List.mem_cons, hax, false_or, ih (x :: seen), List.mem_cons,
          not_or]

theorem nodup_firstDedupAux (l : List String) : ∀ seen : List String,
    (firstDedupAux seen l).Nodup := by
  induction l with
  | nil => intro seen; simp [firstDedupAux]
  | cons x xs ih =>
    intro seen
    unfold firstDedupAux
    split
    · exact ih seen
    · refine List.nodup_cons.mpr ⟨fun hmem => ?_, ih (x :: seen)⟩
      exact ((mem_firstDedupAux x xs (x :: seen)).mp hmem).2 (List.mem_cons_self x seen)

theorem mem_firstDedup (a : String) (l : List String) : a ∈ firstDedup l ↔ a ∈ l := by
  unfold firstDedup
  rw [mem_firstDedupAux]
  simp

theorem nodup_firstDedup (l : List String) : (firstDedup l).Nodup :=
  nodup_firstDedupAux l []

theorem mem_counterItems (l : List String) (p : String × ℕ) :
    p ∈ counterItems l ↔ p.1 ∈ l ∧ p.2 = l.count p.1 := by
  unfold counterItems
  rw [List.mem_map]
  constructor
  · rintro ⟨g, hg, rfl⟩
    exact ⟨(mem_firstDedup g l).mp hg, rfl⟩
  · rintro ⟨h1, h2⟩
    exact ⟨p.1, (mem_firstDedup p.1 l).mpr h1, by rw [← h2]⟩

theorem counter_total (l : List String) :
    ((counterItems l).map Prod.snd).sum = l.length := by
  unfold counterItems
  rw [List.map_map]
  have hmap : (Prod.snd ∘ fun g => (g, l.count g)) = fun g => l.count g := rfl
  rw [hmap, ← List.sum_toFinset _ (nodup_firstDedup l)]
  have hset : (firstDedup l).toFinset = l.toFinset := by
    ext a
    simp [List.mem_toFinset, mem_firstDedup]
  rw [hset, List.sum_toFinset_count_eq_length]

theorem mostCommon_subset (n : ℕ) (items : List (String × ℕ)) (p : String × ℕ)
    (hp : p ∈ mostCommon n items) : p ∈ items :=
  (sortDescBy_perm Prod.snd items).mem_iff.mp (List.mem_of_mem_take hp)

theorem mostCommon_most_frequent (n : ℕ) (items : List (String × ℕ)) (p q : String × ℕ)
    (hp : p ∈ mostCommon n items) (hq : q ∈ items)
    (hqnot : q ∉ mostCommon n items) : q.2 ≤ p.2 := by
  have hqs : q ∈ sortDescBy Prod.snd items :=
    (sortDescBy_perm Prod.snd items).mem_iff.mpr hq
  have hsorted : ((sortDescBy Prod.snd items).take n
      ++ (sortDescBy Prod.snd items).drop n).Pairwise
        (fun a b : String × ℕ => b.2 ≤ a.2) := by
    rw [List.take_append_drop]
    exact sortDescBy_pairwise Prod.snd items
  have hqdrop : q ∈ (sortDescBy Prod.snd items).drop n := by
    rcases List.mem_append.mp ((List.take_append_drop n
        (sortDescBy Prod.snd items)).symm ▸ hqs) with h | h
    · exact absurd h hqnot
    · exact h
  exact (List.pairwise_append.mp hsorted).2.2 p hp q hqdrop

theorem mostCommon_length (n : ℕ) (items : List (String × ℕ)) :
    (mostCommon n items).length ≤ n :=
  List.length_take_le n _

theorem weightItems_ok (total : ℕ) (htotal : total ≠ 0) (items : List (String × ℕ)) :
    weightItems total items
      = Except.ok (items.map fun gc => (gc.1, (gc.2 : ℚ) / (total : ℚ))) := by
  induction items with
  | nil => rfl
  | cons gc rest ih =>
    obtain ⟨g, c⟩ := gc
    unfold weightItems
    rw [if_neg htotal, ih]
    rfl

theorem popList_ok (l : List ArtistInfo) (h : ∀ a ∈ l, a.popularity.isSome) :
    popList l = Except.ok (l.map fun a => a.popularity.getD 0) := by
  induction l with
  | nil => rfl
  | cons a rest ih =>
    have ha := h a (List.mem_cons_self a rest)
    unfold popList
    cases hpa : a.popularity with
    | none => simp [hpa] at ha
    | some p =>
      rw [ih fun b hb => h b (List.mem_cons_of_mem a hb)]
      simp [hpa]

theorem userGenresE_of_empty (artists : List ArtistInfo)
    (h : (artists.flatMap fun a => a.genres.getD []) = []) :
    userGenresE artists = Except.ok [] := by
  unfold userGenresE
  rw [h]
  rfl

theorem userGenresE_ok (artists : List ArtistInfo)
    (h : (artists.flatMap fun a => a.genres.getD []) ≠ []) :
    userGenresE artists = Except.ok
      ((mostCommon 10 (counterItems (artists.flatMap fun a => a.genres.getD []))).map
        fun gc => (gc.1, (gc.2 : ℚ)
          / (((artists.flatMap fun a => a.genres.getD []).length : ℕ) : ℚ))) := by
  unfold userGenresE
  dsimp only
  rw [counter_total]
  exact weightItems_ok _ (fun hl => h (List.length_eq_zero.mp hl)) _

/-- C8: the categorical profile maps every retained genre to
count / total-genre-mentions, where the denominator counts all genre
mentions across the sampled artists (not only the retained genres);
at most the 10 most frequent genres are retained (every retained genre is
at least as frequent as every unretained one); and the profile pairs the
genre map with the arithmetic mean popularity over the same capped subset
of at most 20 distinct top artists. -/
theorem c8_profile (ids : List String) (lookup : String → ArtistInfo)
    (hids : ids.Nodup)
    (hpop : ∀ i ∈ ids.take 20, ((lookup i).popularity).isSome)
    (profile : ListenerProfile)
    (hrun : buildProfile ids lookup = Except.ok profile) :
    (ids.take 20).length ≤ 20
    ∧ (ids.take 20).Nodup
    ∧ profile.user_genres.length ≤ 10
    ∧ (∀ p ∈ profile.user_genres,
        p.2 = ((((ids.take 20).map lookup).flatMap fun a => a.genres.getD []).count p.1 : ℚ)
          / ((((ids.take 20).map lookup).flatMap fun a => a.genres.getD []).length : ℚ))
    ∧ (∀ p ∈ profile.user_genres,
        ∀ g' ∈ (((ids.take 20).map lookup).flatMap fun a => a.genres.getD []),
          (∀ q ∈ profile.user_genres, q.1 ≠ g') →
          (((ids.take 20).map lookup).flatMap fun a => a.genres.getD []).count g'
            ≤ (((ids.take 20).map lookup).flatMap fun a => a.genres.getD []).count p.1)
    ∧ profile.user_popularity
        = (((ids.take 20).map lookup).map fun a => a.popularity.getD 0).sum
          / (((ids.take 20).length : ℕ) : ℚ) := by
  have htake : (ids.take 20).length ≤ 20 := List.length_take_le 20 ids
  have hnd : (ids.take 20).Nodup := hids.sublist (List.take_sublist 20 ids)
  have hps : popList ((ids.take 20).map lookup)
      = Except.ok (((ids.take 20).map lookup).map fun a => a.popularity.getD 0) := by
    refine popList_ok _ fun a ha => ?_
    obtain ⟨i, hi, rfl⟩ := List.mem_map.mp ha
    exact hpop i hi
  have hlen : ((((ids.take 20).map lookup).map fun a => a.popularity.getD 0).length : ℚ)
      = (((ids.take 20).length : ℕ) : ℚ) := by
    rw [List.length_map, List.length_map]
  unfold buildProfile at hrun
  dsimp only at hrun
  by_cases hall : (((ids.take 20).map lookup).flatMap fun a => a.genres.getD []) = []
  · rw [userGenresE_of_empty _ hall] at hrun
    dsimp only at hrun
    rw [hps] at hrun
    dsimp only at hrun
    injection hrun with hrun
    subst hrun
    refine ⟨htake, hnd, by simp, by simp, by simp, ?_⟩
    dsimp only
    rw [hlen]
  · rw [userGenresE_ok _ hall] at hrun
    dsimp only at hrun
    rw [hps] at hrun
    dsimp only at hrun
    injection hrun with hrun
    subst hrun
    dsimp only
    refine ⟨htake, hnd, ?_, ?_, ?_, by rw [hlen]⟩
    · rw [List.length_map]
      exact mostCommon_length 10 _
    · intro p hp
      obtain ⟨gc, hgc, rfl⟩ := List.mem_map.mp hp
      have hci := (mem_counterItems _ gc).mp (mostCommon_subset 10 _ gc hgc)
      dsimp only
      rw [hci.2]
    · intro p hp g' hg' hnotin
      obtain ⟨gc, hgc, rfl⟩ := List.mem_map.mp hp
      have hci := (mem_counterItems _ gc).mp (mostCommon_subset 10 _ gc hgc)
      have hqmem : (g', (((ids.take 20).map lookup).flatMap
          fun a => a.genres.getD []).count g') ∈ counterItems
            (((ids.take 20).map lookup).flatMap fun a => a.genres.getD []) :=
        (mem_counterItems _ _).mpr ⟨hg', rfl⟩
      have hqnot : (g', (((ids.take 20).map lookup).flatMap
          fun a => a.genres.getD []).count g') ∉ mostCommon 10 (counterItems
            (((ids.take 20).map lookup).flatMap fun a => a.genres.getD [])) := by
        intro hmem
        exact hnotin _ (List.mem_map.mpr ⟨_, hmem, rfl⟩) rfl
      have := mostCommon_most_frequent 10 _ gc _ hgc hqmem hqnot
      dsimp only at this ⊢
      rw [hci.2] at this
      exact this

/-- Witness for C8: two distinct artists with overlapping genres. -/
theorem c8_witness :
    (["a", "b"] : List String).Nodup
    ∧ (∀ i ∈ (["a", "b"] : List String).take 20,
        (((fun i => if i = "a" then (⟨some ["rock", "pop"], some 60⟩ : ArtistInfo)
          else ⟨some ["rock"], some 40⟩) : String → ArtistInfo) i).popularity.isSome)
    ∧ buildProfile ["a", "b"] (fun i => if i = "a" then ⟨some ["rock", "pop"], some 60⟩
        else ⟨some ["rock"], some 40⟩) = Except.ok ⟨[("rock", 2/3), ("pop", 1/3)], 50⟩
    ∧ ((["a", "b"] : List String).take 20).length ≤ 20
    ∧ (ListenerProfile.mk [("rock", 2/3), ("pop", 1/3)] 50).user_genres.length ≤ 10 := by
  have hrun : buildProfile ["a", "b"] (fun i => if i = "a" then
      (⟨some ["rock", "pop"], some 60⟩ : ArtistInfo) else ⟨some ["rock"], some 40⟩)
      = Except.ok ⟨[("rock", 2/3), ("pop", 1/3)], 50⟩ := by
    simp [buildProfile, userGenresE, popList, counterItems, firstDedup, firstDedupAux,
      mostCommon, weightItems, sortDescBy, insDesc]
    norm_num
  have h := c8_profile ["a", "b"] (fun i => if i = "a" then ⟨some ["rock", "pop"], some 60⟩
      else ⟨some ["rock"], some 40⟩) (by decide) (by decide) _ hrun
  exact ⟨by decide, by decide, hrun, h.1, h.2.2.1⟩

/-- Counterexample to C9: with one fetched top artist whose genre list is
empty, the profile construction completes with an empty genre map — the
division's `ZeroDivisionError` branch is NOT reached, because the
comprehension over `most_common(10)` of an empty counter performs no
division at all. -/
theorem c9_counterexample :
    (∀ i ∈ (["artist-id"] : List String), (emptyGenreLookup i).genres.getD [] = [])
    ∧ buildProfile ["artist-id"] emptyGenreLookup
        = Except.ok ⟨[], 50⟩ := by
  constructor
  · intro i _
    rfl
  · simp [buildProfile, userGenresE, popList, counterItems, firstDedup, firstDedupAux,
      mostCommon, weightItems, sortDescBy, emptyGenreLookup]

/-- C9 as amended: the normalization divides by `total_genres` with no
zero guard, but a division is evaluated only for genres retained from the
counter, each of which has count ≥ 1, so the denominator is positive
whenever a division occurs: the genre-weight computation succeeds on every
input, every retained weight lies in (0,1], and when every fetched artist
has zero genres the genre map is empty and no error is raised. -/
theorem c9_amended (artists : List ArtistInfo) :
    (∃ gw, userGenresE artists = Except.ok gw ∧ ∀ p ∈ gw, 0 < p.2 ∧ p.2 ≤ 1)
    ∧ ((∀ a ∈ artists, a.genres.getD [] = []) → userGenresE artists = Except.ok []) := by
  constructor
  · by_cases hall : (artists.flatMap fun a => a.genres.getD []) = []
    · exact ⟨[], userGenresE_of_empty artists hall, by simp⟩
    · refine ⟨_, userGenresE_ok artists hall, ?_⟩
      intro p hp
      obtain ⟨gc, hgc, rfl⟩ := List.mem_map.mp hp
      have hci := (mem_counterItems _ gc).mp (mostCommon_subset 10 _ gc hgc)
      have hcpos : 0 < gc.2 := hci.2 ▸ List.count_pos_iff.mpr hci.1
      have hcle : gc.2 ≤ (artists.flatMap fun a => a.genres.getD []).length :=
        hci.2 ▸ List.count_le_length _ _
      have hlpos : 0 < ((artists.flatMap fun a => a.genres.getD []).length : ℚ) := by
        exact_mod_cast Nat.lt_of_lt_of_le hcpos hcle
      constructor
      · exact div_pos (by exact_mod_cast hcpos) hlpos
      · rw [div_le_one hlpos]
        exact_mod_cast hcle
  · intro hempty
    refine userGenresE_of_empty artists ?_
    rw [List.flatMap_eq_nil_iff]
    exact hempty

/-- Witness for C9 as amended, at the all-empty-genre input. -/
theorem c9_witness :
    (∀ a ∈ [emptyGenreLookup "x"], a.genres.getD [] = ([] : List String))
    ∧ userGenresE [emptyGenreLookup "x"] = Except.ok [] :=
  ⟨fun a ha => by
      rw [List.mem_singleton.mp ha]
      rfl,
    (c9_amended [emptyGenreLookup "x"]).2 fun a ha => by
      rw [List.mem_singleton.mp ha]
      rfl⟩

end SpotifyRec
